import Mathlib

/-!
Shallow embedding of the Deeppowers FHE image-filter demo
(`src/fhe_server.py` and `src/mcp_server.py`).

The homomorphic engine (`FHEServer`/`FHEClient` from
`client_server_interface.py`) and the filter list `AVAILABLE_FILTERS`
(from `common.py`) are external to the two source files; following the
spec they are treated as black boxes and appear here as parameters of a
`ServerEnv`.  File paths such as `SERVER_TMP_PATH / f"{name}_{filter_name}_{user_id}"`
share the fixed directory prefix `SERVER_TMP_PATH`, so a path is
represented by the flat string the f-string builds.  Because the result
is a `pathlib.Path`, two distinct flat strings can still denote the same
storage location (pathlib collapses doubled and trailing slashes and
single-dot components); `normComponents` models that normalization, and
`serverLocation`/`clientLocation` give the storage location a triple
denotes.  Equal flat strings always denote equal locations, so the
store, keyed by flat strings, is faithful for the session claims; the
three per-session artifact names also remain distinct as locations,
since their first path components already differ.  Byte blobs are
modelled as `List Nat`.
-/

namespace FheDemo

/-- Byte blobs exchanged between client and server. -/
abbrev Bytes := List Nat

/-- The server's (or client's) temporary directory, as a map from
file name to stored bytes; `none` means the file does not exist. -/
abbrev Store := String → Option Bytes

/-- A directory with no files. -/
def emptyStore : Store := fun _ => none

/-- Writing a file: `path.open("wb")` followed by `write` replaces the
blob stored at `p` wholesale. -/
def put (st : Store) (p : String) (b : Bytes) : Store :=
  fun q => if q = p then some b else st q

/-- `get_server_file_path(name, user_id, filter_name)` from
`src/fhe_server.py`: the file-name component of
`SERVER_TMP_PATH / f"{name}_{filter_name}_{user_id}"`. -/
def getServerFilePath (name userId filterName : String) : String :=
  name ++ "_" ++ filterName ++ "_" ++ userId

/-- `get_client_file_path(name, id, filter_name)` from
`src/mcp_server.py`: the file-name component of
`CLIENT_TMP_PATH / f"{name}_{filter_name}_{id}"`. -/
def getClientFilePath (name id filterName : String) : String :=
  name ++ "_" ++ filterName ++ "_" ++ id

/-- Splitting a character list at every slash (the components of a
POSIX path string before normalization). -/
def splitSlash : List Char → List (List Char)
  | [] => [[]]
  | c :: rest =>
    if c = '/' then [] :: splitSlash rest
    else
      match splitSlash rest with
      | [] => [[c]]
      | comp :: comps => (c :: comp) :: comps

/-- The normalized component list of a relative path string, as
`pathlib.PurePosixPath` computes it: spurious slashes (empty
components, i.e. doubled or trailing slashes) and single-dot
components are collapsed; `..` components are kept.  The repository's
path strings always start with a fixed artifact-kind literal, never a
slash, so the base directory prefix is common to every path and is
omitted. -/
def normComponents (l : List Char) : List (List Char) :=
  (splitSlash l).filter (fun comp => !(comp == []) && !(comp == ['.']))

/-- The storage location denoted by `get_server_file_path(name,
user_id, filter_name)`: the pathlib-normalized components of the
returned `Path`, relative to `SERVER_TMP_PATH`.  Two triples alias the
same server file exactly when their locations are equal. -/
def serverLocation (name userId filterName : String) : List (List Char) :=
  normComponents (getServerFilePath name userId filterName).data

/-- The storage location denoted by `get_client_file_path(name, id,
filter_name)`, relative to `CLIENT_TMP_PATH`. -/
def clientLocation (name id filterName : String) : List (List Char) :=
  normComponents (getClientFilePath name id filterName).data

/-! ### Server endpoints (`src/fhe_server.py`) -/

/-- Errors the server endpoints can raise.  `artifactNotFound` models a
`FileNotFoundError` from `path.open("rb")`; `unknownFilter` models a
`KeyError` from the `FHE_SERVERS[filter]` dictionary lookup. -/
inductive ServerErr where
  | artifactNotFound
  | unknownFilter
deriving DecidableEq

/-- The server's external dependencies (from `common.py` and
`client_server_interface.py`, outside the two source files): the list
`AVAILABLE_FILTERS` and, for each filter, the engine `FHEServer.run`. -/
structure ServerEnv where
  availableFilters : List String
  run : String → Bytes → Bytes → Bytes

/-- `FHE_SERVERS`: the dictionary built at start-up, one engine per
available filter; lookup fails (Python `KeyError`) on any other name. -/
def fheServers (env : ServerEnv) (filterName : String) : Option (Bytes → Bytes → Bytes) :=
  if filterName ∈ env.availableFilters then some (env.run filterName) else none

/-- `/send_input`: writes the uploaded encrypted image and evaluation
key to their derived paths, overwriting whatever was there. -/
def sendInput (st : Store) (userId filterName : String) (img key : Bytes) : Store :=
  put (put st (getServerFilePath "encrypted_image" userId filterName) img)
    (getServerFilePath "evaluation_key" userId filterName) key

/-- `/run_fhe`: reads the encrypted image, then the evaluation key,
then resolves the engine from `FHE_SERVERS`, runs it, and writes the
encrypted output.  The elapsed-time measurement is modelled separately
by `fheExecutionTime`, since it does not affect the store. -/
def runFhe (env : ServerEnv) (st : Store) (userId filterName : String) :
    Except ServerErr Store :=
  match st (getServerFilePath "encrypted_image" userId filterName) with
  | none => .error .artifactNotFound
  | some img =>
    match st (getServerFilePath "evaluation_key" userId filterName) with
    | none => .error .artifactNotFound
    | some key =>
      match fheServers env filterName with
      | none => .error .unknownFilter
      | some engine =>
        .ok (put st (getServerFilePath "encrypted_output" userId filterName)
          (engine img key))

/-- `/get_output`: reads back the encrypted output blob. -/
def getOutput (st : Store) (userId filterName : String) : Except ServerErr Bytes :=
  match st (getServerFilePath "encrypted_output" userId filterName) with
  | none => .error .artifactNotFound
  | some b => .ok b

/-- `/fhe_full`, transcribed statement by statement: write both uploads,
read them back, resolve the engine, run it, write the output, read the
output back, and return it together with the final store. -/
def fheFull (env : ServerEnv) (st : Store) (userId filterName : String)
    (img key : Bytes) : Except ServerErr (Store × Bytes) :=
  match put (put st (getServerFilePath "encrypted_image" userId filterName) img)
      (getServerFilePath "evaluation_key" userId filterName) key
      (getServerFilePath "encrypted_image" userId filterName) with
  | none => .error .artifactNotFound
  | some img1 =>
    match put (put st (getServerFilePath "encrypted_image" userId filterName) img)
        (getServerFilePath "evaluation_key" userId filterName) key
        (getServerFilePath "evaluation_key" userId filterName) with
    | none => .error .artifactNotFound
    | some key1 =>
      match fheServers env filterName with
      | none => .error .unknownFilter
      | some engine =>
        match put (put (put st (getServerFilePath "encrypted_image" userId filterName) img)
            (getServerFilePath "evaluation_key" userId filterName) key)
            (getServerFilePath "encrypted_output" userId filterName) (engine img1 key1)
            (getServerFilePath "encrypted_output" userId filterName) with
        | none => .error .artifactNotFound
        | some out =>
          .ok (put (put (put st (getServerFilePath "encrypted_image" userId filterName) img)
            (getServerFilePath "evaluation_key" userId filterName) key)
            (getServerFilePath "encrypted_output" userId filterName) (engine img1 key1), out)

/-- The spec's three-stage reference path for `runFull`: `submit`, then
`compute`, then `fetch`, in sequence with the same arguments; used only
to compare against `fheFull`. -/
def threeStageFull (env : ServerEnv) (st : Store) (userId filterName : String)
    (img key : Bytes) : Except ServerErr (Store × Bytes) :=
  match runFhe env (sendInput st userId filterName img key) userId filterName with
  | .error e => .error e
  | .ok st2 =>
    match getOutput st2 userId filterName with
    | .error e => .error e
    | .ok b => .ok (st2, b)

/-- A concrete environment with one filter, used for witnesses. -/
def sampleEnv : ServerEnv :=
  { availableFilters := ["grayscale"], run := fun _ img key => img ++ key }

/-! ### Elapsed-time computation

`fhe_execution_time = round(time.time() - start, 2)`, with the two
clock samples as explicit rational inputs and Python's `round`
(round-half-to-even) made exact over `ℚ`. -/

/-- Python's `round(q, 2)`: the multiple of `1/100` nearest to `q`,
ties going to the even multiple. -/
def pyRound2 (q : ℚ) : ℚ :=
  if q * 100 - ⌊q * 100⌋ < 1 / 2 then (⌊q * 100⌋ : ℚ) / 100
  else if q * 100 - ⌊q * 100⌋ > 1 / 2 then ((⌊q * 100⌋ : ℚ) + 1) / 100
  else if ⌊q * 100⌋ % 2 = 0 then (⌊q * 100⌋ : ℚ) / 100
  else ((⌊q * 100⌋ : ℚ) + 1) / 100

/-- `round(time.time() - start, 2)` with clock samples `t0` (before the
engine call) and `t1` (after). -/
def fheExecutionTime (t0 t1 : ℚ) : ℚ := pyRound2 (t1 - t0)

/-! ### Client (`src/mcp_server.py`) -/

/-- Value of an ASCII hex digit. -/
def hexVal (c : Char) : Nat :=
  if '0' ≤ c ∧ c ≤ '9' then c.toNat - 48
  else if 'a' ≤ c ∧ c ≤ 'f' then c.toNat - 87
  else c.toNat - 55

/-- Is `c` an ASCII hex digit? -/
def isHexDigit (c : Char) : Bool :=
  ('0' ≤ c && c ≤ '9') || ('a' ≤ c && c ≤ 'f') || ('A' ≤ c && c ≤ 'F')

/-- `urllib.parse.unquote` restricted to single-byte percent escapes: a
`%` followed by two hex digits decodes to the character with that code;
an invalid escape is left as-is.  (Multi-byte UTF-8 escapes are not
needed by any claim.) -/
def unquoteChars : List Char → List Char
  | [] => []
  | c :: rest =>
    if c = '%' then
      match rest with
      | h1 :: h2 :: rest2 =>
        if isHexDigit h1 && isHexDigit h2 then
          Char.ofNat (16 * hexVal h1 + hexVal h2) :: unquoteChars rest2
        else '%' :: unquoteChars (h1 :: h2 :: rest2)
      | [h1] => ['%', h1]
      | [] => ['%']
    else c :: unquoteChars rest
termination_by l => l.length
decreasing_by
  all_goals simp
  omega

/-- `urllib.parse.unquote` on a string. -/
def pyUnquote (s : String) : String := ⟨unquoteChars s.data⟩

/-- The key directory both client tools derive:
`KEYS_PATH / f"{filter_name}_{user_id}"` (final component). -/
def clientKeyDir (filterName userId : String) : String :=
  filterName ++ "_" ++ userId

/-- The externally visible actions a client tool performs, in order.
`loadKeys` is the action the code never performs (loading persisted key
material); it exists so that its absence can be stated. -/
inductive ClientAction where
  | genKeys (keyDir : String)
  | loadKeys (keyDir : String)
  | encryptImage
  | postRequest (endpoint : String)
  | readArtifact (path : String)
  | writeArtifact (path : String)
  | decryptBlob
deriving DecidableEq

/-- The ordered actions of `process_image_with_fhe` (after the image
download): build an `FHEClient` with
`key_dir=KEYS_PATH / f"{filter_name}_{user_id}"`, generate private and
evaluation keys, encrypt, POST `/fhe_full`, and save the encrypted
output under the freshly minted `output_id`. -/
def processImageTrace (filterName userId outputId : String) : List ClientAction :=
  [ .genKeys (clientKeyDir filterName userId),
    .encryptImage,
    .postRequest "/fhe_full",
    .writeArtifact (getClientFilePath "output" outputId filterName) ]

/-- The ordered actions of `decrypt_output_image`: URL-decode the
filter name, build an `FHEClient` with
`key_dir=KEYS_PATH / f"{decoded_filter_name}_{user_id}"`, regenerate
private and evaluation keys, read the stored encrypted output keyed by
`output_id`, decrypt it, and save the temporary JPEG. -/
def decryptOutputTrace (userId filterName outputId imageUuid : String) :
    List ClientAction :=
  let df := pyUnquote filterName
  [ .genKeys (clientKeyDir df userId),
    .readArtifact (getClientFilePath "output" outputId df),
    .decryptBlob,
    .writeArtifact (getClientFilePath ("temp_jpg_" ++ imageUuid) (userId ++ ".jpeg") df) ]

/-! ### Image preprocessing in `process_image_with_fhe` -/

/-- A PIL image as far as the preprocessing logic observes it: its mode
string and its `size = (width, height)`. -/
structure PILImage where
  mode : String
  width : Nat
  height : Nat
deriving DecidableEq

/-- `Image.convert(mode)`: same pixels reinterpreted, the mode becomes
the requested one (PIL behaviour; the library is external). -/
def pilConvert (img : PILImage) (m : String) : PILImage :=
  { img with mode := m }

/-- `Image.resize((w, h))`: the size becomes the requested one, the
mode is unchanged (PIL behaviour; the library is external). -/
def pilResize (img : PILImage) (w h : Nat) : PILImage :=
  { img with width := w, height := h }

/-- The shape of `numpy.array(img)` as a dimension list: RGB gives
`(height, width, 3)`, RGBA `(height, width, 4)`, single-channel modes a
two-dimensional array (numpy/PIL behaviour; the libraries are
external). -/
def arrayShape (img : PILImage) : List Nat :=
  if img.mode = "RGB" then [img.height, img.width, 3]
  else if img.mode = "RGBA" then [img.height, img.width, 4]
  else [img.height, img.width]

/-- First preprocessing statement in `process_image_with_fhe`:
`if input_image.mode != 'RGB': input_image = input_image.convert('RGB')`. -/
def forceRGB (img : PILImage) : PILImage :=
  if img.mode ≠ "RGB" then pilConvert img "RGB" else img

/-- Second preprocessing statement:
`if input_image.size != (100, 100): input_image = input_image.resize((100, 100))`. -/
def forceSize (img : PILImage) : PILImage :=
  if (img.width, img.height) ≠ (100, 100) then pilResize img 100 100 else img

/-- The forced preprocessing in `process_image_with_fhe`: convert to
RGB unless already RGB, then resize to `(100, 100)` unless already that
size. -/
def preprocessImage (img : PILImage) : PILImage := forceSize (forceRGB img)

/-- Client-side failure: the `assert input_image_array.shape == (100, 100, 3)`
guard. -/
inductive ClientErr where
  | invalidImageShape
deriving DecidableEq

/-- The shape assertion after preprocessing. -/
def checkImageShape (img : PILImage) : Except ClientErr PILImage :=
  if arrayShape img = [100, 100, 3] then .ok img else .error .invalidImageShape

/-! ### Response handling in `process_image_with_fhe` -/

/-- The HTTP response from `/fhe_full` as the client observes it. -/
structure HTTPResponse where
  headers : String → Option String
  content : Bytes

/-- The client's external dependency for parsing header values:
Python's `float(str)` (black box). -/
structure ClientEnv where
  parseFloat : String → ℚ

/-- `float(response.headers.get("X-FHE-Execution-Time", 0))`: parse the
header when present, otherwise `float(0) = 0.0`. -/
def executionTimeOf (env : ClientEnv) (resp : HTTPResponse) : ℚ :=
  match resp.headers "X-FHE-Execution-Time" with
  | some s => env.parseFloat s
  | none => 0

/-- The dictionary `process_image_with_fhe` returns. -/
structure ProcessResult where
  userId : String
  filterName : String
  executionTime : ℚ
  outputId : String
  status : String
deriving DecidableEq

/-- The return value of `process_image_with_fhe` given the `/fhe_full`
response and the identifiers minted during the call. -/
def processImageResult (env : ClientEnv) (resp : HTTPResponse)
    (userId filterName outputId : String) : ProcessResult :=
  { userId := userId
    filterName := filterName
    executionTime := executionTimeOf env resp
    outputId := outputId
    status := "success" }

/-- A concrete client environment, used for witnesses. -/
def sampleClientEnv : ClientEnv := { parseFloat := fun _ => 0 }

/-- A concrete response carrying no headers, used for witnesses. -/
def sampleResponse : HTTPResponse := { headers := fun _ => none, content := [] }

/-! ## Helper lemmas -/

theorem put_same (st : Store) (p : String) (b : Bytes) : put st p b p = some b := by
  simp [put]

theorem put_other (st : Store) (p q : String) (b : Bytes) (h : q ≠ p) :
    put st p b q = st q := by
  simp [put, h]

/-- The underscore-joined encoding used by both path functions. -/
theorem data_join (a b : String) : (a ++ b).data = a.data ++ b.data :=
  String.data_append a b

/-- Splitting a list at a separator character that occurs in neither
prefix determines both parts. -/
theorem sep_split (c : Char) :
    ∀ (a a' rest rest' : List Char), c ∉ a → c ∉ a' →
      a ++ c :: rest = a' ++ c :: rest' → a = a' ∧ rest = rest'
  | [], [], _, _, _, _, h => by simpa using h
  | [], x' :: a', _, _, _, h2, h => by
      simp only [List.nil_append, List.cons_append, List.cons.injEq] at h
      exact absurd (h.1 ▸ List.mem_cons_self x' a') h2
  | x :: a, [], _, _, h1, _, h => by
      simp only [List.nil_append, List.cons_append, List.cons.injEq] at h
      exact absurd (h.1.symm ▸ List.mem_cons_self x a) h1
  | x :: a, x' :: a', rest, rest', h1, h2, h => by
      simp only [List.cons_append, List.cons.injEq] at h
      have ih := sep_split c a a' rest rest'
        (fun hm => h1 (List.mem_cons_of_mem x hm))
        (fun hm => h2 (List.mem_cons_of_mem x' hm)) h.2
      exact ⟨by rw [h.1, ih.1], ih.2⟩

/-- An underscore-joined triple `kind ++ "_" ++ mid ++ "_" ++ last` is
uniquely parseable when `mid` and `last` contain no underscore
(`kind` may contain underscores). -/
theorem join_inj (k m l k' m' l' : String)
    (hm : '_' ∉ m.data) (hl : '_' ∉ l.data)
    (hm' : '_' ∉ m'.data) (hl' : '_' ∉ l'.data)
    (h : k ++ "_" ++ m ++ "_" ++ l = k' ++ "_" ++ m' ++ "_" ++ l') :
    k = k' ∧ m = m' ∧ l = l' := by
  have hd : k.data ++ '_' :: (m.data ++ '_' :: l.data)
      = k'.data ++ '_' :: (m'.data ++ '_' :: l'.data) := by
    have := congrArg String.data h
    simpa [data_join, List.append_assoc] using this
  have hrev := congrArg List.reverse hd
  simp only [List.reverse_append, List.reverse_cons, List.append_assoc,
    List.singleton_append] at hrev
  have step1 := sep_split '_' l.data.reverse l'.data.reverse
    (m.data.reverse ++ '_' :: k.data.reverse)
    (m'.data.reverse ++ '_' :: k'.data.reverse)
    (by simpa using hl) (by simpa using hl') (by simpa [List.append_assoc] using hrev)
  have step2 := sep_split '_' m.data.reverse m'.data.reverse
    k.data.reverse k'.data.reverse
    (by simpa using hm) (by simpa using hm') step1.2
  refine ⟨String.ext ?_, String.ext ?_, String.ext ?_⟩
  · exact List.reverse_injective step2.2
  · exact List.reverse_injective step2.1
  · exact List.reverse_injective step1.1

/-- A slash-free string splits into a single component. -/
theorem splitSlash_no_slash (l : List Char) (h : '/' ∉ l) : splitSlash l = [l] := by
  induction l with
  | nil => rfl
  | cons c rest ih =>
    have hc : ¬c = '/' := fun hcp => h (hcp ▸ List.mem_cons_self c rest)
    have hr : '/' ∉ rest := fun hm => h (List.mem_cons_of_mem c hm)
    simp [splitSlash, hc, ih hr]

/-- A slash-free, non-empty, non-dot string is its own normalized
component list: pathlib normalization does not identify it with any
other such string. -/
theorem normComponents_no_slash (l : List Char) (h : '/' ∉ l) (h1 : l ≠ [])
    (h2 : l ≠ ['.']) : normComponents l = [l] := by
  simp [normComponents, splitSlash_no_slash l h, h1, h2]

theorem no_slash_in_join (k f u : String) (hk : '/' ∉ k.data) (hf : '/' ∉ f.data)
    (hu : '/' ∉ u.data) : '/' ∉ (k ++ "_" ++ f ++ "_" ++ u).data := by
  simp [data_join, hk, hf, hu]

theorem underscore_mem_join (k f u : String) :
    '_' ∈ (k ++ "_" ++ f ++ "_" ++ u).data := by
  simp [data_join]

/-- For slash-free parts, the normalized location of an
underscore-joined triple determines the flat string. -/
theorem norm_join (k f u : String) (hk : '/' ∉ k.data) (hf : '/' ∉ f.data)
    (hu : '/' ∉ u.data) :
    normComponents (k ++ "_" ++ f ++ "_" ++ u).data
      = [(k ++ "_" ++ f ++ "_" ++ u).data] := by
  apply normComponents_no_slash
  · exact no_slash_in_join k f u hk hf hu
  · exact List.ne_nil_of_mem (underscore_mem_join k f u)
  · intro hdot
    have hm := underscore_mem_join k f u
    rw [hdot] at hm
    exact absurd (List.mem_singleton.mp hm) (by decide)

theorem length_server_path (name userId filterName : String) :
    (getServerFilePath name userId filterName).length
      = name.length + filterName.length + userId.length + 2 := by
  have hu : ("_" : String).length = 1 := rfl
  simp [getServerFilePath, String.length_append, hu]
  omega

/-- The encrypted-image path never equals the evaluation-key path for
the same session: the two kind names have different lengths. -/
theorem img_path_ne_key_path (userId filterName : String) :
    getServerFilePath "encrypted_image" userId filterName
      ≠ getServerFilePath "evaluation_key" userId filterName := by
  intro h
  have := congrArg String.length h
  rw [length_server_path, length_server_path] at this
  have h1 : ("encrypted_image" : String).length = 15 := rfl
  have h2 : ("evaluation_key" : String).length = 14 := rfl
  rw [h1, h2] at this
  omega

/-- Percent-decoding is the identity on strings without a percent
sign. -/
theorem unquoteChars_no_escape (l : List Char) (h : '%' ∉ l) : unquoteChars l = l := by
  induction l with
  | nil => rw [unquoteChars.eq_def]
  | cons c rest ih =>
    have hc : ¬c = '%' := fun hcp => h (hcp ▸ List.mem_cons_self c rest)
    have hrest : '%' ∉ rest := fun hm => h (List.mem_cons_of_mem c hm)
    rw [unquoteChars.eq_def]
    simp [hc, ih hrest]

theorem pyUnquote_no_escape (s : String) (h : '%' ∉ s.data) : pyUnquote s = s := by
  have := unquoteChars_no_escape s.data h
  simp [pyUnquote, this]

/-! ## Claims -/

/-- C1, as stated, is false, in two independent ways.  Underscore
flattening: the distinct triples (kind, filter, identity) =
("encrypted_image", "a", "b_c") and ("encrypted_image", "a_b", "c")
denote the same server (and client) storage location.  Pathlib
normalization: the distinct identities "c/" and "c" (same kind and
filter) also denote the same location, because the trailing slash is
collapsed by `pathlib`. -/
theorem claim1_collision :
    serverLocation "encrypted_image" "b_c" "a"
      = serverLocation "encrypted_image" "c" "a_b"
    ∧ clientLocation "encrypted_image" "b_c" "a"
      = clientLocation "encrypted_image" "c" "a_b"
    ∧ (("a" : String), ("b_c" : String)) ≠ (("a_b" : String), ("c" : String))
    ∧ serverLocation "encrypted_image" "c/" "f"
      = serverLocation "encrypted_image" "c" "f"
    ∧ clientLocation "encrypted_image" "c/" "f"
      = clientLocation "encrypted_image" "c" "f"
    ∧ ("c/" : String) ≠ "c" := by
  decide

/-- C1 (amended): the storage-location derivation is injective on
triples whose kind contains no slash and whose filter and identity
contain neither an underscore nor a slash (the kind may contain
underscores): if two such triples denote the same pathlib-normalized
storage location under `get_server_file_path` (resp.
`get_client_file_path`), the triples are equal. -/
theorem claim1_location_injective (k u f k' u' f' : String)
    (hk : '/' ∉ k.data) (hf : '_' ∉ f.data) (hfs : '/' ∉ f.data)
    (hu : '_' ∉ u.data) (hus : '/' ∉ u.data)
    (hk' : '/' ∉ k'.data) (hf' : '_' ∉ f'.data) (hfs' : '/' ∉ f'.data)
    (hu' : '_' ∉ u'.data) (hus' : '/' ∉ u'.data) :
    (serverLocation k u f = serverLocation k' u' f' →
      k = k' ∧ f = f' ∧ u = u')
    ∧ (clientLocation k u f = clientLocation k' u' f' →
      k = k' ∧ f = f' ∧ u = u') := by
  have key : normComponents (k ++ "_" ++ f ++ "_" ++ u).data
      = normComponents (k' ++ "_" ++ f' ++ "_" ++ u').data →
      k = k' ∧ f = f' ∧ u = u' := by
    intro h
    rw [norm_join k f u hk hfs hus, norm_join k' f' u' hk' hfs' hus'] at h
    have hs : k ++ "_" ++ f ++ "_" ++ u = k' ++ "_" ++ f' ++ "_" ++ u' :=
      String.ext (by simpa using h)
    exact join_inj k f u k' f' u' hf hu hf' hu' hs
  exact ⟨fun h => key h, fun h => key h⟩

/-- Witness for C1 (amended) at concrete underscore- and slash-free
inputs. -/
theorem claim1_location_injective_witness :
    (serverLocation "encrypted_image" "u1" "blur"
        = serverLocation "evaluation_key" "u2" "sharpen" →
      ("encrypted_image" : String) = "evaluation_key"
        ∧ ("blur" : String) = "sharpen" ∧ ("u1" : String) = "u2")
    ∧ (clientLocation "encrypted_image" "u1" "blur"
        = clientLocation "evaluation_key" "u2" "sharpen" →
      ("encrypted_image" : String) = "evaluation_key"
        ∧ ("blur" : String) = "sharpen" ∧ ("u1" : String) = "u2") :=
  claim1_location_injective "encrypted_image" "u1" "blur" "evaluation_key" "u2" "sharpen"
    (by decide) (by decide) (by decide) (by decide) (by decide)
    (by decide) (by decide) (by decide) (by decide) (by decide)

/-- C2: for every environment, prior store, user, filter and payloads,
`/fhe_full` returns exactly the result of `/send_input` then `/run_fhe`
then `/get_output` in sequence with the same arguments: the same output
bytes and the same final store of artifacts (or the same error). -/
theorem claim2_full_equals_three_stages (env : ServerEnv) (st : Store)
    (userId filterName : String) (img key : Bytes) :
    fheFull env st userId filterName img key
      = threeStageFull env st userId filterName img key := by
  unfold fheFull threeStageFull runFhe getOutput sendInput
  cases hImg : put (put st (getServerFilePath "encrypted_image" userId filterName) img)
      (getServerFilePath "evaluation_key" userId filterName) key
      (getServerFilePath "encrypted_image" userId filterName) with
  | none => rfl
  | some img1 =>
    cases hKey : put (put st (getServerFilePath "encrypted_image" userId filterName) img)
        (getServerFilePath "evaluation_key" userId filterName) key
        (getServerFilePath "evaluation_key" userId filterName) with
    | none => rfl
    | some key1 =>
      cases hEng : fheServers env filterName with
      | none => rfl
      | some engine => simp [put_same]

/-- C3: reading before the corresponding write fails with
`ArtifactNotFound`: `/run_fhe` on a store holding no encrypted image
for the key, and `/get_output` on a store holding no encrypted output
for the key, both return the file-not-found error. -/
theorem claim3_read_before_write (env : ServerEnv) (st : Store)
    (userId filterName : String) :
    (st (getServerFilePath "encrypted_image" userId filterName) = none →
      runFhe env st userId filterName = .error .artifactNotFound)
    ∧ (st (getServerFilePath "encrypted_output" userId filterName) = none →
      getOutput st userId filterName = .error .artifactNotFound) := by
  constructor
  · intro h
    simp [runFhe, h]
  · intro h
    simp [getOutput, h]

/-- Witness for C3 on the empty store. -/
theorem claim3_read_before_write_witness :
    runFhe sampleEnv emptyStore "u1" "grayscale" = .error .artifactNotFound
    ∧ getOutput emptyStore "u1" "grayscale" = .error .artifactNotFound :=
  ⟨(claim3_read_before_write sampleEnv emptyStore "u1" "grayscale").1 rfl,
   (claim3_read_before_write sampleEnv emptyStore "u1" "grayscale").2 rfl⟩

/-- C4, as stated, is false: `/run_fhe` opens the artifact files before
it consults `FHE_SERVERS`, so for a fresh key an unknown filter name
fails with `ArtifactNotFound`, not `UnknownFilter`. -/
theorem claim4_counterexample :
    "bogus" ∉ sampleEnv.availableFilters
    ∧ runFhe sampleEnv emptyStore "u1" "bogus" = .error .artifactNotFound
    ∧ ServerErr.artifactNotFound ≠ ServerErr.unknownFilter :=
  ⟨by decide, rfl, by decide⟩

/-- C4 (amended): once the session's artifacts are present (for
example, right after `/send_input` with the same key), `/run_fhe` on a
filter name outside `AVAILABLE_FILTERS` fails with `UnknownFilter`,
produced by the registry lookup. -/
theorem claim4_unknown_filter (env : ServerEnv) (st : Store)
    (userId filterName : String) (img key : Bytes)
    (h : filterName ∉ env.availableFilters) :
    runFhe env (sendInput st userId filterName img key) userId filterName
      = .error .unknownFilter := by
  have h1 : sendInput st userId filterName img key
      (getServerFilePath "encrypted_image" userId filterName) = some img := by
    rw [sendInput, put_other _ _ _ _ (img_path_ne_key_path userId filterName), put_same]
  have h2 : sendInput st userId filterName img key
      (getServerFilePath "evaluation_key" userId filterName) = some key := by
    rw [sendInput, put_same]
  simp [runFhe, h1, h2, fheServers, h]

/-- Witness for C4 (amended) at a concrete unknown filter. -/
theorem claim4_unknown_filter_witness :
    runFhe sampleEnv (sendInput emptyStore "u1" "bogus" [1] [2]) "u1" "bogus"
      = .error .unknownFilter :=
  claim4_unknown_filter sampleEnv emptyStore "u1" "bogus" [1] [2] (by decide)

/-- C5: `/send_input` is last-write-wins per key: after two submits
with different payloads for the same (userId, filter), `/run_fhe`
invokes the engine on exactly the second payload and stores its
result. -/
theorem claim5_last_write_wins (env : ServerEnv) (st : Store)
    (userId filterName : String) (img1 key1 img2 key2 : Bytes)
    (h : filterName ∈ env.availableFilters) :
    runFhe env (sendInput (sendInput st userId filterName img1 key1)
        userId filterName img2 key2) userId filterName
      = .ok (put (sendInput (sendInput st userId filterName img1 key1)
            userId filterName img2 key2)
          (getServerFilePath "encrypted_output" userId filterName)
          (env.run filterName img2 key2)) := by
  have h1 : sendInput (sendInput st userId filterName img1 key1)
      userId filterName img2 key2
      (getServerFilePath "encrypted_image" userId filterName) = some img2 := by
    rw [sendInput, put_other _ _ _ _ (img_path_ne_key_path userId filterName), put_same]
  have h2 : sendInput (sendInput st userId filterName img1 key1)
      userId filterName img2 key2
      (getServerFilePath "evaluation_key" userId filterName) = some key2 := by
    rw [sendInput, put_same]
  simp [runFhe, h1, h2, fheServers, h]

/-- C6, as stated, is false: `decrypt_output_image` first applies
`urllib.parse.unquote` to the filter name, so for a filter name that
contains a percent escape (here "a%20b") it derives a different key
directory and reads a different output path than the job that created
the output did. -/
theorem claim6_counterexample :
    ClientAction.genKeys (clientKeyDir "a%20b" "u1")
        ∈ processImageTrace "a%20b" "u1" "o1"
    ∧ ClientAction.genKeys (clientKeyDir "a%20b" "u1")
        ∉ decryptOutputTrace "u1" "a%20b" "o1" "x"
    ∧ ClientAction.readArtifact (getClientFilePath "output" "o1" "a%20b")
        ∉ decryptOutputTrace "u1" "a%20b" "o1" "x" := by
  have hq : pyUnquote "a%20b" = "a b" := by
    simp [pyUnquote, unquoteChars, isHexDigit, hexVal]
  refine ⟨by simp [processImageTrace], ?_, ?_⟩
  · simp only [decryptOutputTrace, hq]
    decide
  · simp only [decryptOutputTrace, hq]
    decide

/-- C6 (amended): for a filter name without percent escapes (so that
URL-decoding leaves it unchanged), `decrypt_output_image` derives the
key directory from (filterName, userId) exactly as
`process_image_with_fhe` did, regenerates key material there (and
never loads a persisted key), and reads the stored encrypted output at
exactly the path keyed by outputId that the job wrote. -/
theorem claim6_rederivation (userId filterName outputId imageUuid : String)
    (h : '%' ∉ filterName.data) :
    decryptOutputTrace userId filterName outputId imageUuid
      = [ ClientAction.genKeys (clientKeyDir filterName userId),
          ClientAction.readArtifact (getClientFilePath "output" outputId filterName),
          ClientAction.decryptBlob,
          ClientAction.writeArtifact (getClientFilePath ("temp_jpg_" ++ imageUuid)
            (userId ++ ".jpeg") filterName) ]
    ∧ (∀ d, ClientAction.loadKeys d ∉ decryptOutputTrace userId filterName outputId imageUuid)
    ∧ ClientAction.genKeys (clientKeyDir filterName userId)
        ∈ processImageTrace filterName userId outputId
    ∧ ClientAction.writeArtifact (getClientFilePath "output" outputId filterName)
        ∈ processImageTrace filterName userId outputId := by
  have hq := pyUnquote_no_escape filterName h
  refine ⟨by simp [decryptOutputTrace, hq], ?_, by simp [processImageTrace],
    by simp [processImageTrace]⟩
  intro d
  simp [decryptOutputTrace, hq]

/-- Witness for C6 (amended) at a concrete escape-free filter name. -/
theorem claim6_rederivation_witness :
    decryptOutputTrace "u1" "blur" "o1" "x"
      = [ ClientAction.genKeys (clientKeyDir "blur" "u1"),
          ClientAction.readArtifact (getClientFilePath "output" "o1" "blur"),
          ClientAction.decryptBlob,
          ClientAction.writeArtifact (getClientFilePath ("temp_jpg_" ++ "x")
            ("u1" ++ ".jpeg") "blur") ]
    ∧ (∀ d, ClientAction.loadKeys d ∉ decryptOutputTrace "u1" "blur" "o1" "x")
    ∧ ClientAction.genKeys (clientKeyDir "blur" "u1")
        ∈ processImageTrace "blur" "u1" "o1"
    ∧ ClientAction.writeArtifact (getClientFilePath "output" "o1" "blur")
        ∈ processImageTrace "blur" "u1" "o1" :=
  claim6_rederivation "u1" "blur" "o1" "x" (by decide)

/-- C7: for clock samples taken in order, the reported elapsed time
`round(time.time() - start, 2)` is non-negative and is an integer
multiple of one hundredth. -/
theorem claim7_elapsed_time (t0 t1 : ℚ) (h : t0 ≤ t1) :
    0 ≤ fheExecutionTime t0 t1
    ∧ ∃ k : ℤ, fheExecutionTime t0 t1 = (k : ℚ) / 100 := by
  have hx : (0 : ℚ) ≤ (t1 - t0) * 100 :=
    mul_nonneg (sub_nonneg.mpr h) (by norm_num)
  have hn : (0 : ℤ) ≤ ⌊(t1 - t0) * 100⌋ := Int.floor_nonneg.mpr hx
  have hnq : (0 : ℚ) ≤ (⌊(t1 - t0) * 100⌋ : ℤ) := by exact_mod_cast hn
  unfold fheExecutionTime pyRound2
  split_ifs with h1 h2 h3
  · exact ⟨div_nonneg hnq (by norm_num), ⟨⌊(t1 - t0) * 100⌋, rfl⟩⟩
  · exact ⟨div_nonneg (by linarith) (by norm_num),
      ⟨⌊(t1 - t0) * 100⌋ + 1, by push_cast; ring⟩⟩
  · exact ⟨div_nonneg hnq (by norm_num), ⟨⌊(t1 - t0) * 100⌋, rfl⟩⟩
  · exact ⟨div_nonneg (by linarith) (by norm_num),
      ⟨⌊(t1 - t0) * 100⌋ + 1, by push_cast; ring⟩⟩

/-- Witness for C7 at concrete clock samples. -/
theorem claim7_elapsed_time_witness :
    (0 : ℚ) ≤ 1
    ∧ (0 ≤ fheExecutionTime 0 1
      ∧ ∃ k : ℤ, fheExecutionTime 0 1 = (k : ℚ) / 100) :=
  ⟨by norm_num, claim7_elapsed_time 0 1 (by norm_num)⟩

/-- C8: after the forced conversion to RGB and resize to 100x100,
every input image has mode RGB and size 100x100, so the shape of its
numpy array is (100, 100, 3) and the `InvalidImageShape` assertion
branch is unreachable: the check always returns the image. -/
theorem claim8_shape_check_unreachable (img : PILImage) :
    (preprocessImage img).mode = "RGB"
    ∧ (preprocessImage img).width = 100
    ∧ (preprocessImage img).height = 100
    ∧ checkImageShape (preprocessImage img) = .ok (preprocessImage img) := by
  have hm : (preprocessImage img).mode = "RGB" := by
    unfold preprocessImage forceSize forceRGB pilResize pilConvert
    split_ifs <;> simp_all
  have hw : (preprocessImage img).width = 100 ∧ (preprocessImage img).height = 100 := by
    unfold preprocessImage forceSize pilResize
    split_ifs with hs
    · exact ⟨rfl, rfl⟩
    · rw [not_ne_iff] at hs
      exact ⟨congrArg Prod.fst hs, congrArg Prod.snd hs⟩
  refine ⟨hm, hw.1, hw.2, ?_⟩
  simp [checkImageShape, arrayShape, hm, hw.1, hw.2]

/-- C9: `/send_input` performs no filter validation: for any filter
name, including one outside `AVAILABLE_FILTERS`, it writes both the
encrypted-image and evaluation-key artifacts and never raises
`UnknownFilter`; the registry is consulted only by `/run_fhe`, which
then raises `UnknownFilter` for that same key. -/
theorem claim9_submit_skips_validation (env : ServerEnv) (st : Store)
    (userId filterName : String) (img key : Bytes)
    (h : filterName ∉ env.availableFilters) :
    sendInput st userId filterName img key
        (getServerFilePath "encrypted_image" userId filterName) = some img
    ∧ sendInput st userId filterName img key
        (getServerFilePath "evaluation_key" userId filterName) = some key
    ∧ runFhe env (sendInput st userId filterName img key) userId filterName
        = .error .unknownFilter := by
  have h1 : sendInput st userId filterName img key
      (getServerFilePath "encrypted_image" userId filterName) = some img := by
    rw [sendInput, put_other _ _ _ _ (img_path_ne_key_path userId filterName), put_same]
  have h2 : sendInput st userId filterName img key
      (getServerFilePath "evaluation_key" userId filterName) = some key := by
    rw [sendInput, put_same]
  exact ⟨h1, h2, by simp [runFhe, h1, h2, fheServers, h]⟩

/-- Witness for C9 at a concrete unregistered filter name. -/
theorem claim9_submit_skips_validation_witness :
    sendInput emptyStore "u1" "mystery" [7] [8]
        (getServerFilePath "encrypted_image" "u1" "mystery") = some [7]
    ∧ sendInput emptyStore "u1" "mystery" [7] [8]
        (getServerFilePath "evaluation_key" "u1" "mystery") = some [8]
    ∧ runFhe sampleEnv (sendInput emptyStore "u1" "mystery" [7] [8]) "u1" "mystery"
        = .error .unknownFilter :=
  claim9_submit_skips_validation sampleEnv emptyStore "u1" "mystery" [7] [8] (by decide)

/-- C10: when the `/fhe_full` response has no `X-FHE-Execution-Time`
header, `process_image_with_fhe` silently defaults the execution time
to 0 and still reports status "success". -/
theorem claim10_missing_header_defaults (env : ClientEnv) (resp : HTTPResponse)
    (userId filterName outputId : String)
    (h : resp.headers "X-FHE-Execution-Time" = none) :
    (processImageResult env resp userId filterName outputId).executionTime = 0
    ∧ (processImageResult env resp userId filterName outputId).status = "success" := by
  simp [processImageResult, executionTimeOf, h]

/-- Witness for C10 on a response with no headers at all. -/
theorem claim10_missing_header_defaults_witness :
    (processImageResult sampleClientEnv sampleResponse "u1" "blur" "o1").executionTime = 0
    ∧ (processImageResult sampleClientEnv sampleResponse "u1" "blur" "o1").status
        = "success" :=
  claim10_missing_header_defaults sampleClientEnv sampleResponse "u1" "blur" "o1" rfl

/-- Witness for C5 at concrete distinct payloads. -/
theorem claim5_last_write_wins_witness :
    runFhe sampleEnv (sendInput (sendInput emptyStore "u1" "grayscale" [1] [2])
        "u1" "grayscale" [3] [4]) "u1" "grayscale"
      = .ok (put (sendInput (sendInput emptyStore "u1" "grayscale" [1] [2])
            "u1" "grayscale" [3] [4])
          (getServerFilePath "encrypted_output" "u1" "grayscale")
          (sampleEnv.run "grayscale" [3] [4])) :=
  claim5_last_write_wins sampleEnv emptyStore "u1" "grayscale" [1] [2] [3] [4] (by decide)

end FheDemo
